import Mathlib

/-!
Verification of the rlang dynamic-array fragment (src/rlang/dyn-array.c) and the
attribute setter glue (src/sexp.c) against its specification.

Modelling conventions.

The platform signed size type `r_ssize` is a signed 64-bit integer; sizes and
counts are nonnegative at every use site in the source, so they are embedded as
`Nat` together with the explicit bound `SSIZE_MAX = 2 ^ 63 - 1`.  The checked
multiplication `r_ssize_mult` raises an overflow error when the mathematical
product exceeds this bound.  A plain C multiplication of two `r_ssize` values
(as on line 63 of dyn-array.c) overflows by wrapping in two-complement 64-bit
arithmetic; it is embedded as `wrapSMul`, the product reduced modulo `2 ^ 64`
and reinterpreted as a signed value.

The managed backing vector is a byte buffer: `MVec` holds its byte length and
its contents as a total function from byte positions to bytes.  Reads outside
the buffer return 0; writes outside the buffer have no observable effect on
in-buffer reads.  The anchor ("shelter") of a dynamic array holds the control
struct at slot 0 and the backing vector at slot 1; the model conflates the
slot-1 vector with the `v_data` view dereferenced from it, since both denote
the same bytes.

The host allocator can fail; the model makes this explicit with a `limit`
parameter, the largest byte request the host can satisfy.  A request that is
negative (possible after a wrapped multiplication) or larger than `limit`
raises an allocation error.  Fallible operations return `Except`; because the
C error mechanism is a longjmp that leaves the control struct as it stood at
the moment of the raise, the error value carries the control struct state at
that moment.
-/

namespace Rlang

/-- Largest value of the platform signed size type (64-bit). -/
def SSIZE_MAX : Nat := 2 ^ 63 - 1

/-- Host vector element types (`enum r_type`), restricted to the kinds the
fragment can mention. -/
inductive RType where
  | raw
  | lgl
  | int
  | real
  | cplx
  | chr
  | list
deriving DecidableEq

/-- Byte size of one element of a host vector of the given type
(`r_vec_elt_sizeof0`).  A raw element is a single byte. -/
def r_vec_elt_sizeof0 : RType → Nat
  | RType.raw => 1
  | RType.lgl => 4
  | RType.int => 4
  | RType.real => 8
  | RType.cplx => 16
  | RType.chr => 8
  | RType.list => 8

/-- The two error kinds of the component: overflow of a checked size
multiplication, and failure of the host vector allocator. -/
inductive RErr where
  | overflowError
  | allocationError
deriving DecidableEq

/-- A managed host vector, viewed as a byte buffer: its length in bytes and
its contents. -/
structure MVec where
  len : Nat
  byteAt : Nat → UInt8

/-- Read one byte of a vector.  Reads outside the buffer return 0. -/
def MVec.read (v : MVec) (i : Nat) : UInt8 :=
  if i < v.len then v.byteAt i else 0

/-- Write `n` bytes `f 0 .. f (n-1)` starting at (possibly negative) byte
offset `off`, as `memcpy`/`memset` do.  Only in-range positions are
observably changed. -/
def MVec.writeBytes (v : MVec) (off : Int) (n : Nat) (f : Nat → UInt8) : MVec :=
  { len := v.len
    byteAt := fun i =>
      if off ≤ (i : Int) ∧ (i : Int) < off + (n : Int) then f ((i : Int) - off).toNat
      else v.byteAt i }

/-- Allocate a fresh host vector of `capacity` elements of type `t`
(`r_new_vector`). -/
def r_new_vector (t : RType) (capacity : Nat) : MVec :=
  { len := capacity * r_vec_elt_sizeof0 t
    byteAt := fun _ => 0 }

/-- Modelled from the spec: the managed vector allocator call
`resize_vector(type, handle, new_total_size)` (named `r_vec_resize0` in the
source) is host-runtime code that is not part of src/.  Per the external
interface contract it takes the new total size in bytes, may relocate the
vector, and preserves the common prefix of the old and new contents.  It
fails with an allocation error when the host cannot satisfy the request:
here, when the requested size is negative or exceeds the host limit. -/
def r_vec_resize0 (limit : Nat) (_t : RType) (v : MVec) (sizeBytes : Int) :
    Except RErr MVec :=
  if sizeBytes < 0 then Except.error RErr.allocationError
  else if limit < sizeBytes.toNat then Except.error RErr.allocationError
  else Except.ok
    { len := sizeBytes.toNat
      byteAt := fun i =>
        if i < min v.len sizeBytes.toNat then v.byteAt i else 0 }

/-- Checked multiplication on the signed size type (`r_ssize_mult`): raises an
overflow error when the product exceeds `SSIZE_MAX`. -/
def r_ssize_mult (a b : Nat) : Except RErr Nat :=
  if a * b ≤ SSIZE_MAX then Except.ok (a * b) else Except.error RErr.overflowError

/-- Plain (unchecked) C multiplication of two nonnegative `r_ssize` values:
the product wraps in two-complement 64-bit arithmetic. -/
def wrapSMul (a b : Nat) : Int :=
  let m : Nat := (a * b) % 2 ^ 64
  if m < 2 ^ 63 then (m : Int) else (m : Int) - 2 ^ 64

/-- The dynamic-array control struct (`struct r_dyn_array`).  `v_data` models
both the slot-1 child of the anchor (the backing vector) and the raw data
pointer dereferenced from it, since they denote the same bytes.  The anchor
itself and its slot-0 child (the control struct) are implicit: the record is
the slot-0 content. -/
structure DynArray where
  count : Nat
  capacity : Nat
  growth_factor : Nat
  type : RType
  elt_byte_size : Nat
  v_data : MVec

/-- Events on the host protection (garbage-collection root) stack. -/
inductive ProtEvent where
  | keep
  | free
deriving DecidableEq

/-- Construction (`r_new_dyn_vector`).  `prot` is the depth of the host
protection stack at entry; the result carries the constructed control struct,
the protection depth at return, and the trace of KEEP/FREE events issued. -/
def r_new_dyn_vector (type : RType) (capacity : Nat) (prot : Nat) :
    DynArray × Nat × List ProtEvent :=
  -- sexp* shelter = KEEP(r_new_list(2));
  let prot1 := prot + 1
  let tr1 := [ProtEvent.keep]
  -- r_poke_attrib(shelter, attribs_dyn_array); r_mark_object(shelter);
  -- sexp* vec_raw = r_new_raw(sizeof(struct r_dyn_array));
  -- r_list_poke(shelter, 0, vec_raw);
  -- sexp* vec_sexp = r_new_vector(type, capacity);
  -- r_list_poke(shelter, 1, vec_sexp);
  let vec_sexp := r_new_vector type capacity
  let p_vec : DynArray :=
    { count := 0
      capacity := capacity
      growth_factor := 2
      type := type
      elt_byte_size := r_vec_elt_sizeof0 type
      v_data := vec_sexp }
  -- FREE(1); return p_vec;
  let prot2 := prot1 - 1
  (p_vec, prot2, tr1 ++ [ProtEvent.free])

/-- Construction at an empty protection stack, yielding just the array. -/
def r_new_dyn_vector0 (type : RType) (capacity : Nat) : DynArray :=
  (r_new_dyn_vector type capacity 0).1

/-- Byte-array construction (`r_new_dyn_array`): checked product of capacity
and element byte size, then a raw-typed dynamic vector of that many bytes. -/
def r_new_dyn_array (elt_byte_size capacity : Nat) : Except RErr DynArray :=
  match r_ssize_mult capacity elt_byte_size with
  | Except.error e => Except.error e
  | Except.ok arr_byte_size => Except.ok (r_new_dyn_vector0 RType.raw arr_byte_size)

/-- Resize (`r_arr_resize`).  The byte request sent to the host allocator is
the UNCHECKED product `p_arr->elt_byte_size * capacity` (line 63 of the
source), which wraps on overflow.  On allocator failure the control struct is
left exactly as it was; on success the returned vector replaces the slot-1
child, `count` is clamped, and `capacity` is updated. -/
def r_arr_resize (limit : Nat) (p_arr : DynArray) (capacity : Nat) :
    Except (RErr × DynArray) DynArray :=
  match r_vec_resize0 limit p_arr.type p_arr.v_data
      (wrapSMul p_arr.elt_byte_size capacity) with
  | Except.error e => Except.error (e, p_arr)
  | Except.ok arr_raw =>
    Except.ok
      { p_arr with
        count := min p_arr.count capacity
        capacity := capacity
        v_data := arr_raw }

/-- The bytes a push stores: those of the supplied element, or zeros when no
element is supplied (`memcpy` versus `memset`). -/
def eltBytes (p_elt : Option (Nat → UInt8)) : Nat → UInt8 :=
  fun j => match p_elt with
    | some f => f j
    | none => 0

/-- The write step of push: copy `elt_byte_size` bytes of the supplied element
(or zero-fill when absent) into the slot at position `count - 1`
(`memcpy`/`memset` at `r_arr_ptr_back`).  The offset is computed in signed
arithmetic, so a zero `count` addresses bytes before the buffer. -/
def r_arr_write_back (s : DynArray) (p_elt : Option (Nat → UInt8)) : DynArray :=
  { s with
    v_data :=
      s.v_data.writeBytes (((s.count : Int) - 1) * (s.elt_byte_size : Int))
        s.elt_byte_size (eltBytes p_elt) }

/-- Push-back (`r_arr_push_back`).  The count is incremented FIRST
(speculative increment, line 43); if the new count exceeds capacity the new
capacity is computed by checked multiplication and the array resized; finally
the element bytes are written (or the slot zero-filled). -/
def r_arr_push_back (limit : Nat) (p_arr : DynArray)
    (p_elt : Option (Nat → UInt8)) : Except (RErr × DynArray) DynArray :=
  let s1 : DynArray := { p_arr with count := p_arr.count + 1 }
  if s1.capacity < s1.count then
    match r_ssize_mult s1.capacity s1.growth_factor with
    | Except.error e => Except.error (e, s1)
    | Except.ok new_capacity =>
      match r_arr_resize limit s1 new_capacity with
      | Except.error e => Except.error e
      | Except.ok s2 => Except.ok (r_arr_write_back s2 p_elt)
  else
    Except.ok (r_arr_write_back s1 p_elt)

/-- A sequence of push calls, failing at the first failing push. -/
def pushSeq (limit : Nat) (es : List (Option (Nat → UInt8))) (s : DynArray) :
    Except (RErr × DynArray) DynArray :=
  match es with
  | [] => Except.ok s
  | e :: rest =>
    match r_arr_push_back limit s e with
    | Except.error x => Except.error x
    | Except.ok s1 => pushSeq limit rest s1

/-- Extract the success state of a push/resize result. -/
def okArr : Except (RErr × DynArray) DynArray → Option DynArray
  | Except.ok s => some s
  | Except.error _ => none

/-- Extract the control-struct state observed at the moment an error was
raised. -/
def errArr : Except (RErr × DynArray) DynArray → Option DynArray
  | Except.error (_, s) => some s
  | Except.ok _ => none

/-- Extract the kind of a raised error. -/
def errKind : Except (RErr × DynArray) DynArray → Option RErr
  | Except.error (e, _) => some e
  | Except.ok _ => none

/-- Extract the success state of a construction result. -/
def okNew : Except RErr DynArray → Option DynArray
  | Except.ok s => some s
  | Except.error _ => none


/-! ## General lemmas about the embedded operations -/

/-- A failing resize leaves the control struct exactly as it was: the error
value carries the input state. -/
theorem r_arr_resize_error_state (limit cap : Nat) (s t : DynArray) (e : RErr)
    (h : r_arr_resize limit s cap = Except.error (e, t)) : t = s := by
  unfold r_arr_resize at h
  split at h
  · simp only [Except.error.injEq, Prod.mk.injEq] at h
    exact h.2.symm
  · simp at h

/-- A failing push carries the input state with `count` already incremented. -/
theorem r_arr_push_back_error_state (limit : Nat) (s t : DynArray) (e : RErr)
    (p : Option (Nat → UInt8))
    (h : r_arr_push_back limit s p = Except.error (e, t)) :
    t = { s with count := s.count + 1 } := by
  unfold r_arr_push_back at h
  dsimp only at h
  split at h
  · split at h
    · simp only [Except.error.injEq, Prod.mk.injEq] at h
      exact h.2.symm
    · split at h
      · next e2 heq =>
          injection h with h1
          rw [h1] at heq
          exact r_arr_resize_error_state _ _ _ _ _ heq
      · simp at h
  · simp at h

/-- The unchecked multiplication agrees with the mathematical product as long
as the product is representable in the signed size type. -/
theorem wrapSMul_eq_of_le (a b : Nat) (h : a * b ≤ SSIZE_MAX) :
    wrapSMul a b = ((a * b : Nat) : Int) := by
  unfold wrapSMul
  unfold SSIZE_MAX at h
  have h64 : (2 : Nat) ^ 64 = 18446744073709551616 := by norm_num
  have h63 : (2 : Nat) ^ 63 = 9223372036854775808 := by norm_num
  have h2 : a * b < 2 ^ 64 := by omega
  rw [Nat.mod_eq_of_lt h2, if_pos (by omega)]

/-- Success shape of a resize: the allocator accepted the wrapped request and
the new control struct has clamped count, the requested capacity, and the
returned vector as its slot-1 child. -/
theorem r_arr_resize_ok (limit cap : Nat) (s s2 : DynArray)
    (h : r_arr_resize limit s cap = Except.ok s2) :
    ∃ v, r_vec_resize0 limit s.type s.v_data (wrapSMul s.elt_byte_size cap)
          = Except.ok v
      ∧ s2 = { s with count := min s.count cap, capacity := cap, v_data := v } := by
  unfold r_arr_resize at h
  split at h
  · simp at h
  · next v heq =>
      refine ⟨v, heq, ?_⟩
      injection h with h1
      exact h1.symm

/-- Success shape of the modelled allocator call: the request was nonnegative
and within the host limit, the new vector has exactly the requested byte
length, and the common prefix of the contents is preserved. -/
theorem r_vec_resize0_ok (limit : Nat) (t : RType) (v : MVec) (sz : Int) (w : MVec)
    (h : r_vec_resize0 limit t v sz = Except.ok w) :
    0 ≤ sz ∧ sz.toNat ≤ limit ∧ w.len = sz.toNat
    ∧ ∀ i, i < min v.len sz.toNat → w.byteAt i = v.byteAt i := by
  unfold r_vec_resize0 at h
  split at h
  · simp at h
  · split at h
    · simp at h
    · next h1 h2 =>
        injection h with h3
        subst h3
        refine ⟨by omega, by omega, rfl, ?_⟩
        intro i hi
        simp only [if_pos hi]

/-! ## Concrete states used by counterexamples and witnesses -/

/-- A full raw dynamic array whose doubled capacity would exceed `SSIZE_MAX`. -/
def c1state : DynArray :=
  { count := 2 ^ 62, capacity := 2 ^ 62, growth_factor := 2, type := RType.raw,
    elt_byte_size := 1, v_data := { len := 2 ^ 62, byteAt := fun _ => 0 } }

/-- A small full raw array used to exercise allocator-failure paths. -/
def c1wstate : DynArray :=
  { count := 1, capacity := 1, growth_factor := 2, type := RType.raw,
    elt_byte_size := 1, v_data := { len := 1, byteAt := fun _ => 0 } }

/-! ## C1: failure atomicity of push and resize -/

/-- C1, counterexample: on the array `c1state` (count = capacity = 2^62), a
push whose growth multiplication overflows raises the overflow error with
`count` already incremented to 2^62 + 1, so the caller does not observe an
unchanged array, contrary to the claim. -/
theorem c1_counterexample :
    errKind (r_arr_push_back 0 c1state none) = some RErr.overflowError
    ∧ (errArr (r_arr_push_back 0 c1state none)).map DynArray.count
        = some (2 ^ 62 + 1)
    ∧ c1state.count = 2 ^ 62 :=
  ⟨rfl, rfl, rfl⟩

/-- C1, amended: a failing resize raises its error before any control-struct
field is mutated, so the state observed at the raise equals the input state;
a failing push, however, has already performed the speculative increment of
`count` (line 43 of the source), so the state observed at the raise is the
input state with `count` incremented by one, all other fields unchanged. -/
theorem c1_amended (limit n : Nat) (s : DynArray) (p : Option (Nat → UInt8)) :
    (∀ e t, r_arr_resize limit s n = Except.error (e, t) → t = s)
    ∧ (∀ e t, r_arr_push_back limit s p = Except.error (e, t) →
        t = { s with count := s.count + 1 }) :=
  ⟨fun e t h => r_arr_resize_error_state limit n s t e h,
   fun e t h => r_arr_push_back_error_state limit s t e p h⟩

/-- C1 witness: on the concrete array `c1wstate` with a host limit of 0, the
resize fails leaving the state unchanged and the push fails leaving only the
count incremented. -/
theorem c1_amended_witness :
    ({ c1wstate with count := 2 } : DynArray)
        = { c1wstate with count := c1wstate.count + 1 }
    ∧ c1wstate = c1wstate :=
  ⟨(c1_amended 0 2 c1wstate none).2 RErr.allocationError
      { c1wstate with count := 2 } rfl,
   (c1_amended 0 2 c1wstate none).1 RErr.allocationError c1wstate rfl⟩


/-! ## C2: the size request sent to the allocator by resize -/

/-- A typed (real-element) dynamic array holding one 8-byte element. -/
def c2state : DynArray :=
  { count := 1, capacity := 1, growth_factor := 2, type := RType.real,
    elt_byte_size := 8, v_data := { len := 8, byteAt := fun _ => 7 } }

/-- A typed (int-element) array used to witness the amended C2. -/
def c2wstate : DynArray :=
  { count := 1, capacity := 1, growth_factor := 2, type := RType.int,
    elt_byte_size := 4, v_data := { len := 4, byteAt := fun _ => 9 } }

/-- The result of a small successful resize of `c2wstate`. -/
def c2wok : DynArray := (okArr (r_arr_resize 100 c2wstate 2)).getD c2wstate

/-- C2, counterexample: on the typed array `c2state` (element byte size 8),
`resize` to new capacity 2^61 succeeds and the backing vector it installs has
0 bytes — the unchecked product 8 * 2^61 wrapped to 0 — not the 2^61 elements
(8 * 2^61 bytes) the claim requires. -/
theorem c2_counterexample :
    (okArr (r_arr_resize (2 ^ 63) c2state (2 ^ 61))).map (fun t => t.v_data.len)
        = some 0
    ∧ c2state.type = RType.real
    ∧ c2state.elt_byte_size = 8
    ∧ (0 : Nat) ≠ 8 * 2 ^ 61 :=
  ⟨rfl, rfl, rfl, by decide⟩

/-- C2, amended: whenever the product of element byte size and requested
capacity is representable in the signed size type, resize requests exactly
`elt_byte_size * new_capacity` bytes from the allocator — `new_capacity`
elements in typed mode (where `elt_byte_size` is the element size of the
vector type), and `elt_byte_size * new_capacity` bytes, with byte-sized
elements, in byte-array (raw) mode — and the vector the allocator returns
replaces the anchor slot-1 child.  When the product overflows, the request is
the wrapped product instead. -/
theorem c2_amended (limit n : Nat) (s s2 : DynArray)
    (htype : s.elt_byte_size = r_vec_elt_sizeof0 s.type)
    (hov : s.elt_byte_size * n ≤ SSIZE_MAX)
    (h : r_arr_resize limit s n = Except.ok s2) :
    r_vec_resize0 limit s.type s.v_data ((s.elt_byte_size * n : Nat) : Int)
        = Except.ok s2.v_data
    ∧ s2.v_data.len = s.elt_byte_size * n
    ∧ (s.type = RType.raw → s2.v_data.len = n)
    ∧ s2.v_data.len = r_vec_elt_sizeof0 s.type * n := by
  obtain ⟨v, hv, hs2⟩ := r_arr_resize_ok limit n s s2 h
  rw [wrapSMul_eq_of_le _ _ hov] at hv
  have hok := r_vec_resize0_ok _ _ _ _ _ hv
  have hlen : v.len = s.elt_byte_size * n := by
    rw [hok.2.2.1]
    exact Int.toNat_natCast _
  have hdat : s2.v_data = v := by rw [hs2]
  refine ⟨by rw [hdat]; exact hv, by rw [hdat]; exact hlen, ?_, ?_⟩
  · intro hraw
    rw [hdat, hlen, htype, hraw]
    simp [r_vec_elt_sizeof0]
  · rw [hdat, hlen, htype]

/-- C2 witness: resizing the concrete int array `c2wstate` to capacity 2
installs a backing vector of 4 * 2 = 8 bytes, i.e. exactly 2 int elements. -/
theorem c2_amended_witness :
    c2wok.v_data.len = c2wstate.elt_byte_size * 2
    ∧ c2wok.v_data.len = r_vec_elt_sizeof0 c2wstate.type * 2 :=
  ⟨(c2_amended 100 2 c2wstate c2wok rfl (by decide) rfl).2.1,
   (c2_amended 100 2 c2wstate c2wok rfl (by decide) rfl).2.2.2⟩

/-! ## C3: which size multiplications are overflow-checked -/

/-- A typed (real-element) dynamic array holding one 8-byte element. -/
def c3state : DynArray :=
  { count := 1, capacity := 1, growth_factor := 2, type := RType.real,
    elt_byte_size := 8, v_data := { len := 8, byteAt := fun _ => 3 } }

/-- C3, evaluation at the failing input: for `c3state` and new capacity 2^61
the product `elt_byte_size * capacity = 8 * 2^61` exceeds `SSIZE_MAX`, and the
checked multiplication `r_ssize_mult` would refuse it with an overflow error —
yet `r_arr_resize` completes successfully and raises no error at all, because
line 63 of the source multiplies without a check.  The size computation inside
resize is therefore not overflow-guarded, contrary to the claim. -/
theorem c3_code_bug_eval :
    SSIZE_MAX < c3state.elt_byte_size * 2 ^ 61
    ∧ r_ssize_mult c3state.elt_byte_size (2 ^ 61) = Except.error RErr.overflowError
    ∧ (okArr (r_arr_resize (2 ^ 63) c3state (2 ^ 61))).isSome = true
    ∧ errKind (r_arr_resize (2 ^ 63) c3state (2 ^ 61)) = none :=
  ⟨by decide, rfl, rfl, rfl⟩

/-! ## C5: resize truncation and growth semantics -/

/-- A typed (real-element) dynamic array holding one 8-byte element with
nonzero content. -/
def c5state : DynArray :=
  { count := 1, capacity := 1, growth_factor := 2, type := RType.real,
    elt_byte_size := 8, v_data := { len := 8, byteAt := fun _ => 7 } }

/-- A raw two-byte array used to witness the amended C5. -/
def c5wstate : DynArray :=
  { count := 2, capacity := 2, growth_factor := 2, type := RType.raw,
    elt_byte_size := 1, v_data := { len := 2, byteAt := fun _ => 5 } }

/-- The result of truncating `c5wstate` to capacity 1. -/
def c5wok : DynArray := (okArr (r_arr_resize 100 c5wstate 1)).getD c5wstate

/-- C5, counterexample: growing `c5state` (count 1, capacity 1) to capacity
2^61 succeeds with `capacity = 2^61` and `count` unchanged, but the byte at
element index 0 is NOT preserved: the wrapped size request destroyed the
backing storage, so the read returns 0 where the array held 7. -/
theorem c5_counterexample :
    c5state.capacity ≤ 2 ^ 61
    ∧ (okArr (r_arr_resize (2 ^ 63) c5state (2 ^ 61))).map
        (fun t => (t.count, t.capacity, t.v_data.read 0)) = some (1, 2 ^ 61, 0)
    ∧ c5state.v_data.read 0 = 7 :=
  ⟨by decide, rfl, rfl⟩

/-- C5, amended: for a well-formed array (count within capacity, backing
length equal to `elt_byte_size * capacity`) and any target `n` such that
`elt_byte_size * n` does not overflow the signed size type, a successful
`resize(array, n)` with `n < count` truncates — afterwards `count = n`,
`capacity = n`, and the bytes at element indices below `n` are unchanged —
and with `capacity ≤ n` grows — afterwards `capacity = n`, `count` is
unchanged, and the bytes at element indices below `count` are unchanged. -/
theorem c5_amended (limit n : Nat) (s s2 : DynArray)
    (hlen : s.v_data.len = s.elt_byte_size * s.capacity)
    (hcc : s.count ≤ s.capacity)
    (hov : s.elt_byte_size * n ≤ SSIZE_MAX)
    (h : r_arr_resize limit s n = Except.ok s2) :
    (n < s.count →
      s2.count = n ∧ s2.capacity = n
      ∧ ∀ i, i < s.elt_byte_size * n → s2.v_data.read i = s.v_data.read i)
    ∧ (s.capacity ≤ n →
      s2.capacity = n ∧ s2.count = s.count
      ∧ ∀ i, i < s.elt_byte_size * s.count → s2.v_data.read i = s.v_data.read i) := by
  obtain ⟨v, hv, hs2⟩ := r_arr_resize_ok limit n s s2 h
  rw [wrapSMul_eq_of_le _ _ hov] at hv
  have hok := r_vec_resize0_ok _ _ _ _ _ hv
  have hvlen : v.len = s.elt_byte_size * n := by
    rw [hok.2.2.1]
    exact Int.toNat_natCast _
  have hpre : ∀ i, i < min s.v_data.len v.len → v.byteAt i = s.v_data.byteAt i := by
    intro i hi
    apply hok.2.2.2
    rw [← hok.2.2.1]
    exact hi
  constructor
  · intro hn
    have hncap : n ≤ s.capacity := Nat.le_of_lt (Nat.lt_of_lt_of_le hn hcc)
    have hbytes : s.elt_byte_size * n ≤ s.v_data.len := by
      rw [hlen]
      exact Nat.mul_le_mul_left _ hncap
    refine ⟨by rw [hs2]; exact Nat.min_eq_right (Nat.le_of_lt hn), by rw [hs2], ?_⟩
    intro i hi
    have hiv : i < v.len := by rw [hvlen]; exact hi
    have his : i < s.v_data.len := Nat.lt_of_lt_of_le hi hbytes
    have hdat : s2.v_data = v := by rw [hs2]
    rw [hdat]
    unfold MVec.read
    rw [if_pos hiv, if_pos his]
    exact hpre i (by omega)
  · intro hn
    have hbytes : s.elt_byte_size * s.count ≤ s.v_data.len := by
      rw [hlen]
      exact Nat.mul_le_mul_left _ hcc
    have hcnt : s.elt_byte_size * s.count ≤ s.elt_byte_size * n :=
      Nat.mul_le_mul_left _ (Nat.le_trans hcc hn)
    refine ⟨by rw [hs2], by rw [hs2]; exact Nat.min_eq_left (Nat.le_trans hcc hn), ?_⟩
    intro i hi
    have hiv : i < v.len := by rw [hvlen]; omega
    have his : i < s.v_data.len := Nat.lt_of_lt_of_le hi hbytes
    have hdat : s2.v_data = v := by rw [hs2]
    rw [hdat]
    unfold MVec.read
    rw [if_pos hiv, if_pos his]
    exact hpre i (by omega)

/-- C5 witness: truncating the concrete raw array `c5wstate` (count 2) to
capacity 1 leaves count 1, capacity 1, and the byte at index 0 unchanged. -/
theorem c5_amended_witness :
    c5wok.count = 1 ∧ c5wok.capacity = 1
    ∧ c5wok.v_data.read 0 = c5wstate.v_data.read 0 :=
  ⟨((c5_amended 100 1 c5wstate c5wok rfl (by decide) (by decide) rfl).1
      (by decide)).1,
   ((c5_amended 100 1 c5wstate c5wok rfl (by decide) (by decide) rfl).1
      (by decide)).2.1,
   ((c5_amended 100 1 c5wstate c5wok rfl (by decide) (by decide) rfl).1
      (by decide)).2.2 0 (by decide)⟩


/-! ## Field lemmas for push -/

/-- The write step only touches the backing bytes, never the bookkeeping
fields. -/
theorem r_arr_write_back_fields (s : DynArray) (p : Option (Nat → UInt8)) :
    (r_arr_write_back s p).count = s.count
    ∧ (r_arr_write_back s p).capacity = s.capacity
    ∧ (r_arr_write_back s p).growth_factor = s.growth_factor
    ∧ (r_arr_write_back s p).type = s.type
    ∧ (r_arr_write_back s p).elt_byte_size = s.elt_byte_size :=
  ⟨rfl, rfl, rfl, rfl, rfl⟩

/-- Success shape of the checked multiplication. -/
theorem r_ssize_mult_ok (a b c : Nat) (h : r_ssize_mult a b = Except.ok c) :
    c = a * b ∧ a * b ≤ SSIZE_MAX := by
  unfold r_ssize_mult at h
  split at h
  · next hle =>
      injection h with h1
      exact ⟨h1.symm, hle⟩
  · simp at h

/-- Bookkeeping effect of a successful push: either the array had room and
only the count moved, or the capacity was multiplied by the growth factor
(checked) and the count clamped into it. -/
theorem r_arr_push_back_ok_fields (limit : Nat) (s s2 : DynArray)
    (p : Option (Nat → UInt8))
    (h : r_arr_push_back limit s p = Except.ok s2) :
    s2.growth_factor = s.growth_factor
    ∧ s2.type = s.type ∧ s2.elt_byte_size = s.elt_byte_size
    ∧ ((s.count + 1 ≤ s.capacity ∧ s2.capacity = s.capacity
          ∧ s2.count = s.count + 1)
       ∨ (s.capacity < s.count + 1
          ∧ s2.capacity = s.capacity * s.growth_factor
          ∧ s2.count = min (s.count + 1) (s.capacity * s.growth_factor)
          ∧ s.capacity * s.growth_factor ≤ SSIZE_MAX)) := by
  unfold r_arr_push_back at h
  dsimp only at h
  split at h
  · next hc =>
      split at h
      · simp at h
      · next nc heq =>
          obtain ⟨hnc, hbound⟩ := r_ssize_mult_ok _ _ _ heq
          subst hnc
          split at h
          · simp at h
          · next t2 heq2 =>
              obtain ⟨v, hv, ht2⟩ := r_arr_resize_ok _ _ _ _ heq2
              injection h with h1
              subst h1
              rw [ht2]
              exact ⟨rfl, rfl, rfl, Or.inr ⟨hc, rfl, rfl, hbound⟩⟩
  · next hc =>
      injection h with h1
      subst h1
      exact ⟨rfl, rfl, rfl, Or.inl ⟨by omega, rfl, rfl⟩⟩

/-- Invariant of a push sequence on an array with positive initial capacity:
the count advances by exactly one per push, the capacity stays a
power-of-two multiple of the initial capacity, never decreases, and always
bounds the count. -/
theorem pushSeq_inv (limit init : Nat) (hinit : 1 ≤ init)
    (es : List (Option (Nat → UInt8))) :
    ∀ s s2, s.growth_factor = 2 → s.count ≤ s.capacity →
      (∃ k, s.capacity = init * 2 ^ k) →
      pushSeq limit es s = Except.ok s2 →
      s2.count = s.count + es.length ∧ s2.growth_factor = 2
      ∧ s2.count ≤ s2.capacity ∧ (∃ k, s2.capacity = init * 2 ^ k)
      ∧ s.capacity ≤ s2.capacity := by
  induction es with
  | nil =>
    intro s s2 hg hcc hcap h
    unfold pushSeq at h
    injection h with h1
    subst h1
    exact ⟨by simp, hg, hcc, hcap, Nat.le_refl _⟩
  | cons e rest ih =>
    intro s s2 hg hcc hcap h
    unfold pushSeq at h
    split at h
    · simp at h
    · next s1 heq =>
        obtain ⟨k, hk⟩ := hcap
        have hpos : 1 ≤ s.capacity := by
          rw [hk]
          exact Nat.one_le_iff_ne_zero.mpr
            (Nat.mul_ne_zero (by omega) (Nat.pos_iff_ne_zero.mp (Nat.pos_pow_of_pos k (by omega))))
        obtain ⟨hg1, _, _, hcase⟩ := r_arr_push_back_ok_fields _ _ _ _ heq
        have hstep : s1.count = s.count + 1 ∧ s1.count ≤ s1.capacity
            ∧ (∃ j, s1.capacity = init * 2 ^ j) ∧ s.capacity ≤ s1.capacity := by
          rcases hcase with ⟨hle, hcap1, hcnt1⟩ | ⟨hgt, hcap1, hcnt1, _⟩
          · exact ⟨hcnt1, by omega, ⟨k, by rw [hcap1, hk]⟩, by omega⟩
          · rw [hg] at hcap1 hcnt1
            have hcnt2 : s1.count = s.count + 1 := by
              rw [hcnt1]
              omega
            refine ⟨hcnt2, ?_, ⟨k + 1, ?_⟩, ?_⟩
            · rw [hcnt2, hcap1]
              omega
            · rw [hcap1, hk, Nat.pow_succ, Nat.mul_assoc]
            · rw [hcap1]
              omega
        have hrest := ih s1 s2 (by rw [hg1, hg]) hstep.2.1 hstep.2.2.1 h
        refine ⟨by rw [hrest.1, hstep.1]; simp [Nat.add_assoc, Nat.add_comm 1], hrest.2.1,
          hrest.2.2.1, hrest.2.2.2.1, Nat.le_trans hstep.2.2.2 hrest.2.2.2.2⟩

/-! ## C4: count and capacity across push sequences -/

/-- C4, counterexample: on an array created with initial capacity 0, a single
(successful) push leaves `count = 0`, not 1: the speculative increment is
clamped back to the doubled capacity 0 * 2 = 0 by the automatic resize.  So
the claim fails for initial capacity 0. -/
theorem c4_counterexample :
    (okArr (r_arr_push_back (2 ^ 63) (r_new_dyn_vector0 RType.int 0) none)).map
        DynArray.count = some 0
    ∧ (0 : Nat) ≠ 1 :=
  ⟨rfl, by decide⟩

/-- C4, amended: for every array created with POSITIVE initial capacity and
every sequence of successful pushes with no explicit resize, afterwards the
count equals the number of pushes, the capacity is the initial capacity times
a power of the growth factor 2, the capacity is sufficient to hold the count,
and each individual push leaves the capacity of a growth-factor-2 array
non-decreasing. -/
theorem c4_amended (limit : Nat) (t : RType) (init : Nat) (hinit : 1 ≤ init)
    (es : List (Option (Nat → UInt8))) (s2 : DynArray)
    (h : pushSeq limit es (r_new_dyn_vector0 t init) = Except.ok s2) :
    s2.count = es.length
    ∧ (∃ k, s2.capacity = init * 2 ^ k)
    ∧ s2.count ≤ s2.capacity
    ∧ (∀ (u u2 : DynArray) (e : Option (Nat → UInt8)), u.growth_factor = 2 →
        r_arr_push_back limit u e = Except.ok u2 → u.capacity ≤ u2.capacity) := by
  have hcnt0 : (r_new_dyn_vector0 t init).count = 0 := rfl
  have hcap0 : (r_new_dyn_vector0 t init).capacity = init := rfl
  have hinv := pushSeq_inv limit init hinit es (r_new_dyn_vector0 t init) s2 rfl
    (by rw [hcnt0]; exact Nat.zero_le _) ⟨0, by rw [hcap0]; simp⟩ h
  refine ⟨by rw [hinv.1, hcnt0]; simp, hinv.2.2.2.1, hinv.2.2.1, ?_⟩
  intro u u2 e hg hp
  obtain ⟨_, _, _, hcase⟩ := r_arr_push_back_ok_fields _ _ _ _ hp
  rcases hcase with ⟨_, hcap1, _⟩ | ⟨_, hcap1, _, _⟩
  · omega
  · rw [hg] at hcap1
    omega

/-- The state after two pushes into a fresh one-element int array. -/
def c4wok : DynArray :=
  (okArr (pushSeq 1000 [none, none] (r_new_dyn_vector0 RType.int 1))).getD
    (r_new_dyn_vector0 RType.int 1)

/-- C4 witness: two pushes into an array of initial capacity 1 give count 2
within the doubled capacity. -/
theorem c4_amended_witness : c4wok.count = 2 ∧ c4wok.count ≤ c4wok.capacity :=
  ⟨(c4_amended 1000 RType.int 1 (by decide) [none, none] c4wok rfl).1,
   (c4_amended 1000 RType.int 1 (by decide) [none, none] c4wok rfl).2.2.1⟩

/-! ## C7: the count-capacity invariant -/

/-- A raw array with room for one more element, used to witness C7. -/
def c7state : DynArray :=
  { count := 1, capacity := 2, growth_factor := 2, type := RType.raw,
    elt_byte_size := 1, v_data := { len := 2, byteAt := fun _ => 0 } }

/-- The result of resizing `c7state` to capacity 1. -/
def c7rok : DynArray := (okArr (r_arr_resize 100 c7state 1)).getD c7state

/-- The result of pushing into `c7state`. -/
def c7pok : DynArray := (okArr (r_arr_push_back 100 c7state none)).getD c7state

/-- C7: `count ≤ capacity` holds after every completed operation — creation
establishes it with count 0, resize restores it by clamping the count to
`min count new_capacity`, and a completed push preserves it (the growth
branch has run before the call returns). -/
theorem c7_invariant (limit n capacity : Nat) (t : RType) (s s2 s3 : DynArray)
    (p : Option (Nat → UInt8)) :
    ((r_new_dyn_vector0 t capacity).count = 0
      ∧ (r_new_dyn_vector0 t capacity).count ≤ (r_new_dyn_vector0 t capacity).capacity)
    ∧ (r_arr_resize limit s n = Except.ok s2 →
        s2.count = min s.count n ∧ s2.count ≤ s2.capacity)
    ∧ (r_arr_push_back limit s p = Except.ok s3 → s3.count ≤ s3.capacity) := by
  refine ⟨⟨rfl, Nat.zero_le _⟩, ?_, ?_⟩
  · intro h
    obtain ⟨v, hv, hs2⟩ := r_arr_resize_ok _ _ _ _ h
    rw [hs2]
    exact ⟨rfl, Nat.min_le_right _ _⟩
  · intro h
    obtain ⟨_, _, _, hcase⟩ := r_arr_push_back_ok_fields _ _ _ _ h
    rcases hcase with ⟨hle, hcap1, hcnt1⟩ | ⟨_, hcap1, hcnt1, _⟩
    · omega
    · rw [hcnt1, hcap1]
      exact Nat.min_le_right _ _

/-- C7 witness: concrete creation, resize and push all leave the count within
the capacity. -/
theorem c7_invariant_witness :
    (r_new_dyn_vector0 RType.int 3).count = 0
    ∧ c7rok.count = min c7state.count 1 ∧ c7rok.count ≤ c7rok.capacity
    ∧ c7pok.count ≤ c7pok.capacity :=
  ⟨(c7_invariant 100 1 3 RType.int c7state c7rok c7pok none).1.1,
   ((c7_invariant 100 1 3 RType.int c7state c7rok c7pok none).2.1 rfl).1,
   ((c7_invariant 100 1 3 RType.int c7state c7rok c7pok none).2.1 rfl).2,
   (c7_invariant 100 1 3 RType.int c7state c7rok c7pok none).2.2 rfl⟩


/-! ## Read-after-write lemma for the byte buffer -/

/-- Reading inside the just-written region returns the written bytes. -/
theorem read_writeBytes_in (v : MVec) (off : Int) (n : Nat) (f : Nat → UInt8)
    (i : Nat) (h1 : off ≤ (i : Int)) (h2 : (i : Int) < off + (n : Int))
    (h3 : i < v.len) :
    (v.writeBytes off n f).read i = f (((i : Int) - off).toNat) := by
  unfold MVec.writeBytes MVec.read
  dsimp only
  rw [if_pos h3, if_pos ⟨h1, h2⟩]

/-- Reading back the slot just filled by the write step of a push: when the
count is positive and the slot fits in the backing buffer, the stored bytes
are the supplied ones (or zeros for a zero-fill push). -/
theorem r_arr_write_back_read (s : DynArray) (p : Option (Nat → UInt8))
    (hpos : 1 ≤ s.count)
    (hfit : s.count * s.elt_byte_size ≤ s.v_data.len) :
    ∀ j, j < s.elt_byte_size →
      (r_arr_write_back s p).v_data.read ((s.count - 1) * s.elt_byte_size + j)
        = eltBytes p j := by
  intro j hj
  obtain ⟨c, hc⟩ : ∃ c, s.count = c + 1 := ⟨s.count - 1, by omega⟩
  unfold r_arr_write_back
  dsimp only
  have hoff : ((s.count : Int) - 1) * ((s.elt_byte_size : Nat) : Int)
      = ((c * s.elt_byte_size : Nat) : Int) := by
    rw [hc]
    push_cast
    ring
  have hidx : (s.count - 1) * s.elt_byte_size + j = c * s.elt_byte_size + j := by
    rw [hc]
    simp
  have hfit2 : c * s.elt_byte_size + j < s.v_data.len := by
    have : (c + 1) * s.elt_byte_size ≤ s.v_data.len := by rw [← hc]; exact hfit
    rw [Nat.succ_mul] at this
    omega
  rw [hoff, hidx]
  have hr := read_writeBytes_in s.v_data ((c * s.elt_byte_size : Nat) : Int)
    s.elt_byte_size (eltBytes p)
    (c * s.elt_byte_size + j)
    (by push_cast; omega)
    (by push_cast; omega)
    hfit2
  rw [hr]
  have hsub : ((((c * s.elt_byte_size + j : Nat) : Int))
      - ((c * s.elt_byte_size : Nat) : Int)).toNat = j := by
    push_cast
    omega
  rw [hsub]

/-- A successful push increments the count, and the freshly written slot at
position `count - 1` holds exactly the supplied bytes (or zeros for a
zero-fill push).  The hypotheses are the creation-established shape of the
array plus representability of the doubled byte size. -/
theorem r_arr_push_back_read_back (limit : Nat) (s s2 : DynArray)
    (p : Option (Nat → UInt8))
    (hcc : s.count ≤ s.capacity)
    (hlen : s.v_data.len = s.elt_byte_size * s.capacity)
    (hgf : s.growth_factor = 2)
    (hcap : 1 ≤ s.capacity)
    (hov : s.elt_byte_size * (s.capacity * 2) ≤ SSIZE_MAX)
    (h : r_arr_push_back limit s p = Except.ok s2) :
    s2.count = s.count + 1
    ∧ ∀ j, j < s.elt_byte_size →
        s2.v_data.read ((s2.count - 1) * s.elt_byte_size + j)
          = eltBytes p j := by
  unfold r_arr_push_back at h
  dsimp only at h
  split at h
  · next hc =>
      split at h
      · simp at h
      · next nc heq =>
          obtain ⟨hnc, _⟩ := r_ssize_mult_ok _ _ _ heq
          rw [hgf] at hnc
          subst hnc
          split at h
          · simp at h
          · next t2 heq2 =>
              obtain ⟨v, hv, ht2⟩ := r_arr_resize_ok _ _ _ _ heq2
              rw [wrapSMul_eq_of_le _ _ hov] at hv
              have hvok := r_vec_resize0_ok _ _ _ _ _ hv
              have hvlen : v.len = s.elt_byte_size * (s.capacity * 2) := by
                rw [hvok.2.2.1]
                exact Int.toNat_natCast _
              injection h with h1
              subst h1
              have hceq : s.count = s.capacity := by omega
              have hcnt : t2.count = s.count + 1 := by
                rw [ht2]
                dsimp only
                omega
              have he : t2.elt_byte_size = s.elt_byte_size := by rw [ht2]
              have hvd : t2.v_data = v := by rw [ht2]
              have hfit : t2.count * t2.elt_byte_size ≤ t2.v_data.len := by
                rw [hcnt, he, hvd, hvlen, hceq]
                calc (s.capacity + 1) * s.elt_byte_size
                    ≤ (s.capacity * 2) * s.elt_byte_size :=
                      Nat.mul_le_mul_right _ (by omega)
                  _ = s.elt_byte_size * (s.capacity * 2) := Nat.mul_comm _ _
              have hw := r_arr_write_back_read t2 p (by omega) hfit
              constructor
              · rw [(r_arr_write_back_fields t2 p).1, hcnt]
              · intro j hj
                rw [(r_arr_write_back_fields t2 p).1, ← he]
                exact hw j (by rw [he]; exact hj)
  · next hc =>
      injection h with h1
      subst h1
      have hs1 : ({ s with count := s.count + 1 } : DynArray).count
          * ({ s with count := s.count + 1 } : DynArray).elt_byte_size
          ≤ ({ s with count := s.count + 1 } : DynArray).v_data.len := by
        dsimp only
        rw [hlen]
        calc (s.count + 1) * s.elt_byte_size
            ≤ s.capacity * s.elt_byte_size := Nat.mul_le_mul_right _ (by omega)
          _ = s.elt_byte_size * s.capacity := Nat.mul_comm _ _
      have hw := r_arr_write_back_read { s with count := s.count + 1 } p
        (by dsimp only; omega) hs1
      constructor
      · exact (r_arr_write_back_fields _ p).1
      · intro j hj
        rw [(r_arr_write_back_fields _ p).1]
        exact hw j hj


/-! ## C6: push-then-read round trip -/

/-- C6: for an array of the shape creation establishes (count within
capacity, backing length `elt_byte_size * capacity`, growth factor 2) with
capacity at least 1 and a doubled byte size within the signed range, a
successful push of a supplied element followed by a read of the slot at
position `count - 1` returns exactly the supplied `elt_byte_size` bytes, and
a successful push with no value followed by the same read returns all-zero
bytes. -/
theorem c6_roundtrip (limit : Nat) (s s2 s3 : DynArray) (f : Nat → UInt8)
    (hcc : s.count ≤ s.capacity)
    (hlen : s.v_data.len = s.elt_byte_size * s.capacity)
    (hgf : s.growth_factor = 2)
    (hcap : 1 ≤ s.capacity)
    (hov : s.elt_byte_size * (s.capacity * 2) ≤ SSIZE_MAX) :
    (r_arr_push_back limit s (some f) = Except.ok s2 →
      ∀ j, j < s.elt_byte_size →
        s2.v_data.read ((s2.count - 1) * s.elt_byte_size + j) = f j)
    ∧ (r_arr_push_back limit s none = Except.ok s3 →
      ∀ j, j < s.elt_byte_size →
        s3.v_data.read ((s3.count - 1) * s.elt_byte_size + j) = 0) :=
  ⟨fun h j hj =>
    (r_arr_push_back_read_back limit s s2 (some f) hcc hlen hgf hcap hov h).2 j hj,
   fun h j hj =>
    (r_arr_push_back_read_back limit s s3 none hcc hlen hgf hcap hov h).2 j hj⟩

/-- A fresh one-byte raw array used to witness C6. -/
def c6state : DynArray := r_new_dyn_vector0 RType.raw 1

/-- The result of pushing the byte 42 into `c6state`. -/
def c6ok : DynArray :=
  (okArr (r_arr_push_back 100 c6state (some (fun _ => 42)))).getD c6state

/-- The result of a zero-fill push into `c6state`. -/
def c6ok0 : DynArray :=
  (okArr (r_arr_push_back 100 c6state none)).getD c6state

/-- C6 witness: pushing the byte 42 into the concrete array `c6state` and
reading the last slot returns 42; a zero-fill push returns 0. -/
theorem c6_roundtrip_witness :
    c6ok.v_data.read ((c6ok.count - 1) * c6state.elt_byte_size + 0) = 42
    ∧ c6ok0.v_data.read ((c6ok0.count - 1) * c6state.elt_byte_size + 0) = 0 :=
  ⟨(c6_roundtrip 100 c6state c6ok c6ok0 (fun _ => 42) (by decide) (by decide)
      (by decide) (by decide) (by decide)).1 rfl 0 (by decide),
   (c6_roundtrip 100 c6state c6ok c6ok0 (fun _ => 42) (by decide) (by decide)
      (by decide) (by decide) (by decide)).2 rfl 0 (by decide)⟩

/-! ## C8: byte-array creation -/

/-- C8: `r_new_dyn_array` fails with the overflow error — constructing
nothing — exactly when the product of capacity and element byte size exceeds
the signed size maximum; otherwise it returns a raw-mode array with count 0
whose capacity (and backing byte length) is exactly that product. -/
theorem c8_create_byte_array (elt_byte_size capacity : Nat) :
    (SSIZE_MAX < capacity * elt_byte_size →
      r_new_dyn_array elt_byte_size capacity = Except.error RErr.overflowError)
    ∧ (capacity * elt_byte_size ≤ SSIZE_MAX →
      (okNew (r_new_dyn_array elt_byte_size capacity)).map
          (fun a => (a.type, a.count, a.capacity, a.elt_byte_size, a.v_data.len))
        = some (RType.raw, 0, capacity * elt_byte_size, 1,
            capacity * elt_byte_size)) := by
  constructor
  · intro hov
    unfold r_new_dyn_array r_ssize_mult
    rw [if_neg (by omega)]
  · intro hle
    unfold r_new_dyn_array r_ssize_mult
    rw [if_pos hle]
    simp [okNew, r_new_dyn_vector0, r_new_dyn_vector, r_new_vector, r_vec_elt_sizeof0]

/-- C8 witness: a 2^62-byte element size with capacity 4 overflows and
constructs nothing, while element size 4 with capacity 3 yields a raw array
of 12 bytes. -/
theorem c8_create_byte_array_witness :
    r_new_dyn_array (2 ^ 62) 4 = Except.error RErr.overflowError
    ∧ (okNew (r_new_dyn_array 4 3)).map
        (fun a => (a.type, a.count, a.capacity, a.elt_byte_size, a.v_data.len))
      = some (RType.raw, 0, 12, 1, 12) :=
  ⟨(c8_create_byte_array (2 ^ 62) 4).1 (by decide),
   (c8_create_byte_array 4 3).2 (by decide)⟩

/-! ## C9: scoped protection during construction -/

/-- C9: construction issues exactly one KEEP (on the anchor, at entry) and
one FREE (before the return), in that order, and returns with the host
protection stack at exactly its entry depth — the temporary
garbage-collection root never leaks. -/
theorem c9_scoped_protection (t : RType) (capacity prot : Nat) :
    (r_new_dyn_vector t capacity prot).2.1 = prot
    ∧ (r_new_dyn_vector t capacity prot).2.2 = [ProtEvent.keep, ProtEvent.free]
    ∧ (r_new_dyn_vector t capacity prot).2.2.count ProtEvent.free = 1
    ∧ (r_new_dyn_vector t capacity prot).2.2.count ProtEvent.keep = 1 := by
  have h1 : (r_new_dyn_vector t capacity prot).2.1 = prot := by
    show prot + 1 - 1 = prot
    omega
  have htr : (r_new_dyn_vector t capacity prot).2.2
      = [ProtEvent.keep, ProtEvent.free] := rfl
  refine ⟨h1, htr, ?_, ?_⟩
  · rw [htr]
    decide
  · rw [htr]
    decide


/-! ## The attribute setters of src/sexp.c

The host object heap is modelled explicitly: a SEXP is an address into a heap
of records, each holding an attribute association list and an opaque payload
(the object contents, shared by a shallow duplicate).  The host primitives
`Rf_setAttrib` and `Rf_shallow_duplicate` are external collaborators; they
are modelled by their documented effect: in-place attribute update at an
address, and allocation of a fresh address holding a copy of the record. -/

/-- A host object: its attribute list (symbol, value pairs, symbols and
values abstracted as identifiers) and its payload, shared under shallow
duplication. -/
structure SexpRec where
  attribs : List (Nat × Nat)
  payload : Nat
deriving DecidableEq

/-- Replace the value at a symbol in an attribute list, or append the pair. -/
def updateAttr : List (Nat × Nat) → Nat → Nat → List (Nat × Nat)
  | [], sym, attr => [(sym, attr)]
  | (s, a) :: rest, sym, attr =>
    if s = sym then (sym, attr) :: rest else (s, a) :: updateAttr rest sym attr

/-- The effect of the host `Rf_setAttrib` on one record. -/
def Rf_setAttrib (o : SexpRec) (sym attr : Nat) : SexpRec :=
  { o with attribs := updateAttr o.attribs sym attr }

/-- The host object heap: contents of every address, and the first
unallocated address (valid addresses are below `next`). -/
structure Heap where
  mem : Nat → SexpRec
  next : Nat

/-- The distinguished class symbol (`R_ClassSymbol`). -/
def R_ClassSymbol : Nat := 0

/-- In-place attribute mutation (`mut_attr`): `Rf_setAttrib` on the record at
address `x`. -/
def mut_attr (h : Heap) (x sym attr : Nat) : Heap :=
  { h with
    mem := fun y => if y = x then Rf_setAttrib (h.mem x) sym attr else h.mem y }

/-- In-place class mutation (`mut_class`): `mut_attr` at the class symbol. -/
def mut_class (h : Heap) (x classes : Nat) : Heap :=
  mut_attr h x R_ClassSymbol classes

/-- The host `Rf_shallow_duplicate`: a fresh address holding a copy of the
record at `x` (payload shared, attribute list copied). -/
def Rf_shallow_duplicate (h : Heap) (x : Nat) : Nat × Heap :=
  (h.next,
   { mem := fun y => if y = h.next then h.mem x else h.mem y, next := h.next + 1 })

/-- Non-destructive attribute setting (`set_attr`): shallow-duplicate `x`,
mutate the duplicate in place, and return the duplicate. -/
def set_attr (h : Heap) (x sym attr : Nat) : Nat × Heap :=
  let dup := Rf_shallow_duplicate h x
  (dup.1, mut_attr dup.2 dup.1 sym attr)

/-- Non-destructive class setting (`set_class`): `set_attr` at the class
symbol. -/
def set_class (h : Heap) (x classes : Nat) : Nat × Heap :=
  set_attr h x R_ClassSymbol classes

/-! ## C10: set_attr is non-destructive, mut_attr mutates in place -/

/-- C10: for a valid address `x`, `set_attr` leaves the record at `x` — and
every other allocated record — unchanged, returns a fresh address distinct
from `x` whose record is the shallow duplicate of `x` with the attribute set,
and `set_class` is exactly `set_attr` at the class symbol; the `mut_attr` and
`mut_class` variants instead update the record at `x` in place (and touch no
other address). -/
theorem c10_set_attr_functional (h : Heap) (x sym attr : Nat)
    (hx : x < h.next) :
    (set_attr h x sym attr).2.mem x = h.mem x
    ∧ (∀ y, y < h.next → (set_attr h x sym attr).2.mem y = h.mem y)
    ∧ (set_attr h x sym attr).1 ≠ x
    ∧ (set_attr h x sym attr).2.mem (set_attr h x sym attr).1
        = Rf_setAttrib (h.mem x) sym attr
    ∧ (∀ c, set_class h x c = set_attr h x R_ClassSymbol c)
    ∧ (mut_attr h x sym attr).mem x = Rf_setAttrib (h.mem x) sym attr
    ∧ (∀ y, y ≠ x → (mut_attr h x sym attr).mem y = h.mem y)
    ∧ (∀ c, mut_class h x c = mut_attr h x R_ClassSymbol c) := by
  unfold set_attr Rf_shallow_duplicate mut_attr
  dsimp only
  refine ⟨?_, ?_, by omega, ?_, fun c => rfl, ?_, ?_, fun c => rfl⟩
  · rw [if_neg (by omega), if_neg (by omega)]
  · intro y hy
    rw [if_neg (by omega), if_neg (by omega)]
  · rw [if_pos rfl, if_pos rfl]
  · rw [if_pos rfl]
  · intro y hy
    rw [if_neg hy]

/-- A concrete two-object heap used to witness C10. -/
def c10heap : Heap :=
  { mem := fun _ => { attribs := [(1, 2)], payload := 5 }, next := 1 }

/-- C10 witness: on the concrete heap `c10heap`, setting an attribute on
object 0 leaves object 0 unchanged, returns the fresh address 1 carrying the
updated duplicate, and the in-place variant updates object 0 itself. -/
theorem c10_set_attr_functional_witness :
    (set_attr c10heap 0 3 4).2.mem 0 = c10heap.mem 0
    ∧ (set_attr c10heap 0 3 4).1 ≠ 0
    ∧ (set_attr c10heap 0 3 4).2.mem (set_attr c10heap 0 3 4).1
        = Rf_setAttrib (c10heap.mem 0) 3 4
    ∧ (mut_attr c10heap 0 3 4).mem 0 = Rf_setAttrib (c10heap.mem 0) 3 4 :=
  ⟨(c10_set_attr_functional c10heap 0 3 4 (by decide)).1,
   (c10_set_attr_functional c10heap 0 3 4 (by decide)).2.2.1,
   (c10_set_attr_functional c10heap 0 3 4 (by decide)).2.2.2.1,
   (c10_set_attr_functional c10heap 0 3 4 (by decide)).2.2.2.2.2.1⟩

end Rlang
